import Mathlib

/-!
# Verification of the go-zerodev UserOperation packing / submission client

A shallow embedding, over `Nat` and `List Nat` (byte = `Nat` < 256), of the
ERC-4337 client: the EntryPoint 0.7 packing and hashing codec
(`PackUserOperation`, `GetUserOperationHash`, `GetNonce`) and the client
orchestration (`NewClient`, `GetUserOperationAndHashToSign`,
`SendSignedUserOperation`).  Machine `[N]byte` / `*big.Int` values are
modelled as `Nat` with explicit width handling; fallible Go functions
return `Except`; external RPC collaborators (chain node, paymaster,
bundler) enter as explicit outcome parameters.
-/

namespace Zerodev

/-! ## Byte-level primitives -/

/-- Big-endian bytes of `n % 256 ^ w`, exactly `w` bytes
(`math.PaddedBigBytes` / ABI word encoding). -/
def beBytes : Nat → Nat → List Nat
  | 0, _ => []
  | w + 1, n => beBytes w (n / 256) ++ [n % 256]

/-- Little-endian bytes of `n % 256 ^ w`, exactly `w` bytes. -/
def leBytes : Nat → Nat → List Nat
  | 0, _ => []
  | w + 1, n => n % 256 :: leBytes w (n / 256)

/-- Big-endian interpretation of a byte list (`big.Int.SetBytes`). -/
def natFromBytesBE (bs : List Nat) : Nat :=
  bs.foldl (fun acc b => acc * 256 + b) 0

/-- Little-endian interpretation of a byte list. -/
def natFromBytesLE (bs : List Nat) : Nat :=
  bs.foldr (fun b acc => acc * 256 + b) 0

/-- Fuel-driven minimal big-endian byte expansion; with `fuel ≥ n` it is
the minimal big-endian representation of `n` (empty for `0`). -/
def natBytesAux : Nat → Nat → List Nat
  | _, 0 => []
  | 0, _ + 1 => []
  | fuel + 1, n + 1 => natBytesAux fuel ((n + 1) / 256) ++ [(n + 1) % 256]

/-- `big.Int.Bytes()`: minimal big-endian bytes, empty for zero. -/
def bigIntBytes (n : Nat) : List Nat := natBytesAux n n

/-- `common.LeftPadBytes`: left-pad with zeros up to `l`; a slice already
at least `l` long is returned unchanged (never truncated). -/
def leftPadBytes (bs : List Nat) (l : Nat) : List Nat :=
  if l ≤ bs.length then bs else List.replicate (l - bs.length) 0 ++ bs

/-- `common.RightPadBytes`: right-pad with zeros up to `l`. -/
def rightPadBytes (bs : List Nat) (l : Nat) : List Nat :=
  if l ≤ bs.length then bs else bs ++ List.replicate (l - bs.length) 0

/-! ## Keccak-256 (`crypto.Keccak256Hash`, legacy Keccak padding `0x01`)

State: 25 lanes of 64 bits, lane `(x, y)` at list index `x + 5 * y`,
little-endian bytes within a lane; rate 136 bytes. -/

/-- 64-bit left rotation (`0 ≤ r ≤ 63`, lane values below `2 ^ 64`). -/
def rot64 (n r : Nat) : Nat :=
  ((n <<< r) ||| (n >>> (64 - r))) &&& (2 ^ 64 - 1)

/-- One step of the degree-8 LFSR of FIPS 202 (polynomial
`x^8 + x^6 + x^5 + x^4 + 1`, i.e. `0x171`). -/
def lfsrStep (r : Nat) : Nat :=
  let r2 := r * 2
  if 256 ≤ r2 then r2 ^^^ 0x171 else r2

/-- LFSR state after `t` steps from the seed `1`. -/
def lfsrState : Nat → Nat
  | 0 => 1
  | t + 1 => lfsrStep (lfsrState t)

/-- `rc(t)` of FIPS 202: the low bit of the LFSR state. -/
def rcBit (t : Nat) : Nat := lfsrState t % 2

/-- Round constant of round `i`: bits `rc(7i + j)` at positions `2^j - 1`. -/
def roundConstant (i : Nat) : Nat :=
  (List.range 7).foldl (fun acc j => acc ^^^ (rcBit (7 * i + j) <<< (2 ^ j - 1))) 0

/-- The 24 Keccak round constants. -/
def keccakRC : List Nat := (List.range 24).map roundConstant

/-- Rotation offsets for lane `(x, y)` at flat index `x + 5 * y`:
lane `(0, 0)` is fixed, and the offset `(t + 1)(t + 2) / 2 mod 64` is laid
along the π orbit starting from `(1, 0)`. -/
def rhoOffsets : List Nat :=
  ((List.range 24).foldl
    (fun st t =>
      let acc := st.1
      let x := st.2.1
      let y := st.2.2
      (acc.set (x + 5 * y) ((t + 1) * (t + 2) / 2 % 64), (y, (2 * x + 3 * y) % 5)))
    (List.replicate 25 0, (1, 0))).1

/-- Lane `(x, y)` of the state (coordinates taken mod 5). -/
def lane (st : List Nat) (x y : Nat) : Nat :=
  st.getD (x % 5 + 5 * (y % 5)) 0

/-- θ step. -/
def keccakTheta (st : List Nat) : List Nat :=
  let c := fun x => lane st x 0 ^^^ lane st x 1 ^^^ lane st x 2 ^^^ lane st x 3 ^^^ lane st x 4
  let d := fun x => c ((x + 4) % 5) ^^^ rot64 (c ((x + 1) % 5)) 1
  (List.range 25).map fun i => st.getD i 0 ^^^ d (i % 5)

/-- Combined ρ and π steps: lane `(x, y)` rotated by its offset moves to
position `(y, (2x + 3y) % 5)`. -/
def keccakRhoPi (st : List Nat) : List Nat :=
  (List.range 25).foldl
    (fun acc i =>
      let x := i % 5
      let y := i / 5
      acc.set (y % 5 + 5 * ((2 * x + 3 * y) % 5)) (rot64 (st.getD i 0) (rhoOffsets.getD i 0)))
    (List.replicate 25 0)

/-- χ step (`not` within 64 bits is xor against the all-ones mask). -/
def keccakChi (st : List Nat) : List Nat :=
  (List.range 25).map fun i =>
    let x := i % 5
    let y := i / 5
    lane st x y ^^^ (((2 ^ 64 - 1) ^^^ lane st (x + 1) y) &&& lane st (x + 2) y)

/-- One Keccak-f round with round constant `rc`. -/
def keccakRound (st : List Nat) (rc : Nat) : List Nat :=
  let st := keccakChi (keccakRhoPi (keccakTheta st))
  st.set 0 (st.getD 0 0 ^^^ rc)

/-- The Keccak-f[1600] permutation (24 rounds). -/
def keccakF (st : List Nat) : List Nat := keccakRC.foldl keccakRound st

/-- XOR a (≤ 136-byte) block into the first 17 lanes of the state. -/
def xorBlock (st blk : List Nat) : List Nat :=
  (List.range 25).map fun i =>
    st.getD i 0 ^^^ natFromBytesLE ((blk.drop (8 * i)).take 8)

/-- Absorb the padded message, 136 bytes per permutation; fuel bounds the
number of iterations (message length suffices). -/
def keccakAbsorb : Nat → List Nat → List Nat → List Nat
  | 0, st, _ => st
  | fuel + 1, st, msg =>
    if msg.isEmpty then st
    else keccakAbsorb fuel (keccakF (xorBlock st (msg.take 136))) (msg.drop 136)

/-- Legacy Keccak multi-rate padding with domain byte `0x01`. -/
def keccakPad (msg : List Nat) : List Nat :=
  let q := 136 - msg.length % 136
  if q = 1 then msg ++ [0x81]
  else msg ++ 0x01 :: (List.replicate (q - 2) 0 ++ [0x80])

/-- Keccak-256 digest (32 bytes) of a byte sequence. -/
def keccak256 (msg : List Nat) : List Nat :=
  let padded := keccakPad msg
  let st := keccakAbsorb padded.length (List.replicate 25 0) padded
  leBytes 8 (st.getD 0 0) ++ leBytes 8 (st.getD 1 0) ++
    leBytes 8 (st.getD 2 0) ++ leBytes 8 (st.getD 3 0)

/-! ## ABI encoding (static types only, as used by the codec)

`abi.Arguments.Pack` over `address` / `uint256` / `bytes32` values: the
head of each element is one 32-byte word and there is no tail, so the
encoding is the concatenation of the per-element words.  `uint256` values
are reduced mod `2 ^ 256` (`math.U256Bytes`); an `address` is 20 bytes
left-padded to 32; `bytes32` is used verbatim (right-padded if shorter). -/

inductive AbiValue
  | address (a : Nat)
  | uint256 (n : Nat)
  | bytes32 (bs : List Nat)
deriving DecidableEq, Repr

/-- One 32-byte head word per static ABI value. -/
def packElement : AbiValue → List Nat
  | .address a => List.replicate 12 0 ++ beBytes 20 a
  | .uint256 n => beBytes 32 n
  | .bytes32 bs => rightPadBytes bs 32

/-- `abi.Arguments.Pack` for a static tuple: concatenation of the words. -/
def abiPack (args : List AbiValue) : List Nat :=
  (args.map packElement).flatten

/-- `abi.Arguments.Pack` with the Go error channel; for the static value
kinds above, go-ethereum packing never fails. -/
def abiArgsPack (args : List AbiValue) : Except String (List Nat) :=
  .ok (abiPack args)

/-! ## Data model (`types` package, as used by the codec and client) -/

/-- The `UserOperation` record; Go zero values as defaults. -/
structure UserOperation where
  Sender : Nat := 0
  Nonce : Nat := 0
  CallData : List Nat := []
  CallGasLimit : Nat := 0
  VerificationGasLimit : Nat := 0
  PreVerificationGas : Nat := 0
  MaxFeePerGas : Nat := 0
  MaxPriorityFeePerGas : Nat := 0
  Paymaster : Nat := 0
  PaymasterData : List Nat := []
  Signature : List Nat := []
deriving DecidableEq, Repr

/-! ## EntryPoint 0.7 codec (`entrypoint.go`) -/

/-- The compiled-in EntryPoint 0.7 contract address
`0x0000000071727De22E5E9d8BAf0edAc6f37da032`. -/
def entryPointAddress07 : Nat := 0x0000000071727De22E5E9d8BAf0edAc6f37da032

/-- `EntrypointClient07`: the fixed contract address and chain id (the RPC
client and parsed ABI are modelled at their use sites). -/
structure EntrypointClient07 where
  Address : Nat
  ChainID : Nat
deriving DecidableEq, Repr

/-- `NewEntrypoint07`: the constant ABI JSON always parses, so
construction always succeeds with the baked-in address. -/
def NewEntrypoint07 (chainID : Nat) : Except String EntrypointClient07 :=
  .ok { Address := entryPointAddress07, ChainID := chainID }

/-- `createPackedBuffer`: both halves left-padded to 16 bytes and
concatenated (first half first). -/
def createPackedBuffer (first second : List Nat) : List Nat :=
  leftPadBytes first 16 ++ leftPadBytes second 16

/-- `createPaymasterDataBuffer` (dead code in this revision). -/
def createPaymasterDataBuffer (paymaster verificationGas postOpGas paymasterData : List Nat) :
    List Nat :=
  paymaster ++ leftPadBytes verificationGas 16 ++ leftPadBytes postOpGas 16 ++ paymasterData

/-- `toArray32`: copy into a fixed 32-byte array — truncates a longer
buffer to its first 32 bytes, zero-fills a shorter one. -/
def toArray32 (buffer : List Nat) : List Nat :=
  (buffer ++ List.replicate 32 0).take 32

/-- `PackUserOperation`: the EntryPoint 0.7 packed representation. -/
def PackUserOperation (op : UserOperation) : Except String (List Nat) :=
  let hashedInitCode := keccak256 []
  let hashedCallData := keccak256 op.CallData
  let accountGasLimits := createPackedBuffer (bigIntBytes op.VerificationGasLimit)
    (bigIntBytes op.CallGasLimit)
  let gasFees := createPackedBuffer (bigIntBytes op.MaxPriorityFeePerGas)
    (bigIntBytes op.MaxFeePerGas)
  let hashedPaymasterAndData := keccak256 []
  match abiArgsPack
      [.address op.Sender, .uint256 op.Nonce, .bytes32 hashedInitCode,
       .bytes32 hashedCallData, .bytes32 (toArray32 accountGasLimits),
       .uint256 op.PreVerificationGas, .bytes32 (toArray32 gasFees),
       .bytes32 hashedPaymasterAndData] with
  | .error err => .error err
  | .ok packed => .ok packed

/-- `GetUserOperationHash`: content-hash of the packed operation, tuple
encoded with the EntryPoint address and chain id, hashed again. -/
def GetUserOperationHash (e : EntrypointClient07) (op : UserOperation) :
    Except String (List Nat) :=
  match PackUserOperation op with
  | .error err => .error err
  | .ok packedOp =>
    match abiArgsPack
        [.bytes32 (keccak256 packedOp), .address e.Address, .uint256 e.ChainID] with
    | .error err => .error err
    | .ok packed => .ok (keccak256 packed)

/-- The packed bytes `PackUserOperation` produces (its `args.Pack` call is
total for these static types, so the packing never takes the error path). -/
def packBytes (op : UserOperation) : List Nat :=
  abiPack
    [.address op.Sender, .uint256 op.Nonce, .bytes32 (keccak256 []),
     .bytes32 (keccak256 op.CallData),
     .bytes32 (toArray32 (createPackedBuffer (bigIntBytes op.VerificationGasLimit)
       (bigIntBytes op.CallGasLimit))),
     .uint256 op.PreVerificationGas,
     .bytes32 (toArray32 (createPackedBuffer (bigIntBytes op.MaxPriorityFeePerGas)
       (bigIntBytes op.MaxFeePerGas))),
     .bytes32 (keccak256 [])]

/-- The bytes whose keccak256 digest `GetUserOperationHash` returns: the
tuple encoding of the packed operation's digest, the EntryPoint address
and the chain id. -/
def hashInputBytes (e : EntrypointClient07) (op : UserOperation) : List Nat :=
  abiPack [.bytes32 (keccak256 (packBytes op)), .address e.Address, .uint256 e.ChainID]

/-! ## Nonce lookup (`GetNonce`, `computeKey`, hexutil model)

Characters are ASCII codes; `hexutil.Bytes.String` re-encodes the received
bytes as `"0x" ++ lowercase hex`, and `hexutil.Decode` parses that shape. -/

/-- `computeKey`: the active path always returns zero (the derivation from
the account address is commented out). -/
def computeKey (_account : Nat) : Nat := 0

/-- ASCII bytes of `"getNonce(address,uint192)"`. -/
def getNonceSig : List Nat :=
  [103, 101, 116, 78, 111, 110, 99, 101, 40, 97, 100, 100, 114, 101, 115, 115,
   44, 117, 105, 110, 116, 49, 57, 50, 41]

/-- Four-byte method selector of `getNonce(address,uint192)`. -/
def getNonceSelector : List Nat := (keccak256 getNonceSig).take 4

/-- Call data of `abi.Pack("getNonce", account, key)`: selector followed by
the encoded account address and nonce key. -/
def getNonceCallData (account : Nat) : List Nat :=
  getNonceSelector ++ abiPack [.address account, .uint256 (computeKey account)]

/-- The `eth_call` message: EntryPoint address and call data. -/
structure EthCallMsg where
  toAddr : Nat
  data : List Nat
deriving DecidableEq, Repr

/-- The message `GetNonce` sends. -/
def getNonceCallMsg (e : EntrypointClient07) (account : Nat) : EthCallMsg :=
  { toAddr := e.Address, data := getNonceCallData account }

/-- Lower-case hex character of a nibble. -/
def hexDigitChar (n : Nat) : Nat := if n < 10 then 48 + n else 87 + n

/-- `hex.EncodeToString`: two lowercase hex characters per byte. -/
def hexEncodeBytes (bs : List Nat) : List Nat :=
  (bs.map (fun b => [hexDigitChar (b / 16), hexDigitChar (b % 16)])).flatten

/-- `hexutil.Bytes.String`: `"0x"` followed by the hex encoding. -/
def hexBytesToString (bs : List Nat) : List Nat :=
  48 :: 120 :: hexEncodeBytes bs

/-- `hex.fromHexChar`: digit value of `0-9`, `a-f`, `A-F`. -/
def fromHexChar (c : Nat) : Option Nat :=
  if 48 ≤ c ∧ c ≤ 57 then some (c - 48)
  else if 97 ≤ c ∧ c ≤ 102 then some (c - 87)
  else if 65 ≤ c ∧ c ≤ 70 then some (c - 55)
  else none

/-- `hex.DecodeString`: pairs of hex characters; fails on an odd length or
a non-hex character. -/
def hexDecodeChars : List Nat → Option (List Nat)
  | [] => some []
  | [_] => none
  | c1 :: c2 :: rest =>
    match fromHexChar c1, fromHexChar c2, hexDecodeChars rest with
    | some hi, some lo, some tail => some ((16 * hi + lo) :: tail)
    | _, _, _ => none

/-- `hexutil.Decode`: requires a non-empty string with a `0x`/`0X` prefix,
then hex-decodes the remainder. -/
def hexutilDecode (input : List Nat) : Option (List Nat) :=
  match input with
  | 48 :: c :: rest => if c = 120 ∨ c = 88 then hexDecodeChars rest else none
  | _ => none

/-- Errors surfaced by this package, by failing step (`errors.Wrap`). -/
inductive GoError
  | rpcCall (cause : String)
  | decoding (cause : String)
  | collaborator (cause : String)
deriving DecidableEq, Repr

/-- Outcome of the `CallContext` round trip: transport/call failure, or the
response bytes already unmarshalled into `hexutil.Bytes`. -/
inductive RpcOutcome
  | failure (cause : String)
  | success (bytes : List Nat)
deriving DecidableEq, Repr

/-- `GetNonce`: issue the `getNonce(account, key)` view call and decode the
big-endian response. -/
def GetNonce (e : EntrypointClient07) (account : Nat) (callOutcome : RpcOutcome) :
    Except GoError Nat :=
  let _msg := getNonceCallMsg e account
  match callOutcome with
  | .failure cause => .error (.rpcCall ("failed to call getNonce eth_call: " ++ cause))
  | .success hex =>
    match hexutilDecode (hexBytesToString hex) with
    | none => .error (.decoding ("failed to decode getNonce hex"))
    | some decoded => .ok (natFromBytesBE decoded)

/-! ## Client orchestration (`client.go`)

The bundler, paymaster and signer are external collaborators: each call
they serve enters the model as an explicit outcome parameter. -/

/-- One fee tier of `GetUserOperationGasPrice`. -/
structure GasPriceTier where
  maxFeePerGas : Nat
  maxPriorityFeePerGas : Nat
deriving DecidableEq, Repr

/-- The bundler's gas-price recommendation (only the standard tier is
consumed by the client). -/
structure GasPriceResponse where
  standard : GasPriceTier
deriving DecidableEq, Repr

/-- The paymaster's sponsorship response. -/
structure SponsorResponse where
  Paymaster : Nat
  PaymasterData : List Nat
  PreVerificationGas : Nat
  VerificationGasLimit : Nat
  CallGasLimit : Nat
deriving DecidableEq, Repr

/-- A user-operation receipt (contents opaque to the client). -/
structure UserOperationReceipt where
  raw : List Nat
deriving DecidableEq, Repr

/-- `UserOperationResult`: submission identifier plus optional receipt. -/
structure UserOperationResult where
  UserOperationHash : List Nat
  Receipt : Option UserOperationReceipt
deriving DecidableEq, Repr

/-- The block of assignments applying a sponsorship response to the
in-progress operation (paymaster gas limits are commented out). -/
def applySponsorship (op : UserOperation) (sponsorResponse : SponsorResponse) :
    UserOperation :=
  { op with
    Paymaster := sponsorResponse.Paymaster
    PaymasterData := sponsorResponse.PaymasterData
    PreVerificationGas := sponsorResponse.PreVerificationGas
    VerificationGasLimit := sponsorResponse.VerificationGasLimit
    CallGasLimit := sponsorResponse.CallGasLimit }

/-- The operation as built just before the sponsorship request: zero value
with sender, nonce, call data and the standard-tier fee fields set. -/
def preSponsorOp (sender : Nat) (callData : List Nat) (nonce : Nat)
    (gasPrice : GasPriceResponse) : UserOperation :=
  { ({} : UserOperation) with
    Sender := sender
    Nonce := nonce
    CallData := callData
    MaxFeePerGas := gasPrice.standard.maxFeePerGas
    MaxPriorityFeePerGas := gasPrice.standard.maxPriorityFeePerGas }

/-- `GetUserOperationAndHashToSign`: build the operation step by step
(nonce, gas price, sponsorship), then hash it; any step's failure aborts
with that step's error.  `nonceOutcome`, `gasPriceOutcome` and
`sponsorOutcome` are the collaborator results for this run
(`sponsorOutcome` sees the partially built operation it was sent). -/
def GetUserOperationAndHashToSign (e : EntrypointClient07) (sender : Nat)
    (callData : List Nat) (nonceOutcome : Except GoError Nat)
    (gasPriceOutcome : Except GoError GasPriceResponse)
    (sponsorOutcome : UserOperation → Except GoError SponsorResponse) :
    Except GoError (UserOperation × List Nat) :=
  match nonceOutcome with
  | .error err => .error err
  | .ok nonce =>
    match gasPriceOutcome with
    | .error err => .error err
    | .ok gasPrice =>
      let op := preSponsorOp sender callData nonce gasPrice
      match sponsorOutcome op with
      | .error err => .error err
      | .ok sponsorResponse =>
        let op := applySponsorship op sponsorResponse
        match GetUserOperationHash e op with
        | .error err => .error (.collaborator err)
        | .ok opHash => .ok (op, opHash)

/-- `SendSignedUserOperation`: submit; if `waitForReceipt`, poll for the
receipt and discard any polling error (`receipt, _ = …`), leaving the
receipt absent on failure. -/
def SendSignedUserOperation (_signedOp : UserOperation) (waitForReceipt : Bool)
    (sendOutcome : Except GoError (List Nat))
    (receiptOutcome : Except GoError UserOperationReceipt) :
    Except GoError UserOperationResult :=
  match sendOutcome with
  | .error err => .error err
  | .ok response =>
    let receipt : Option UserOperationReceipt :=
      if waitForReceipt then
        match receiptOutcome with
        | .ok r => some r
        | .error _ => none
      else none
    .ok { UserOperationHash := response, Receipt := receipt }

/-! ## Client construction (`NewClient`): connection lifecycle

`NewClient` dials three connections in order (network, paymaster, bundler)
and then initializes the entrypoint, the paymaster client, the bundler
client and the signer.  The model records, next to the returned value, the
exact sequence of `Close()` calls executed on the failure path, in program
order. -/

/-- The three RPC connections `NewClient` opens. -/
inductive ConnId
  | network
  | paymaster
  | bundler
deriving DecidableEq, Repr

/-- Outcomes of the fallible steps of `NewClient` for one run. -/
structure NewClientOutcomes where
  dialNetwork : Except GoError Unit
  dialPaymaster : Except GoError Unit
  dialBundler : Except GoError Unit
  entrypointInit : Except GoError Unit
  paymasterClientInit : Except GoError Unit
  bundlerClientInit : Except GoError Unit
  signerInit : Except GoError Unit
deriving Repr

/-- Connections already dialed when the step failing in a given run was
reached: the prefix of `[network, paymaster, bundler]` opened so far. -/
def opensBefore (o : NewClientOutcomes) : List ConnId :=
  match o.dialNetwork with
  | .error _ => []
  | .ok _ =>
    match o.dialPaymaster with
    | .error _ => [.network]
    | .ok _ =>
      match o.dialBundler with
      | .error _ => [.network, .paymaster]
      | .ok _ => [.network, .paymaster, .bundler]

/-- `NewClient` after config validation: the result together with the
sequence of `Close()` calls executed, in program order. -/
def NewClientCloses (o : NewClientOutcomes) : Except GoError Unit × List ConnId :=
  match o.dialNetwork with
  | .error err => (.error err, [])
  | .ok _ =>
  match o.dialPaymaster with
  | .error err => (.error err, [.network])
  | .ok _ =>
  match o.dialBundler with
  | .error err => (.error err, [.paymaster, .network])
  | .ok _ =>
  match o.entrypointInit with
  | .error err => (.error err, [.network, .paymaster, .network])
  | .ok _ =>
  match o.paymasterClientInit with
  | .error err => (.error err, [.network, .paymaster, .network])
  | .ok _ =>
  match o.bundlerClientInit with
  | .error err => (.error err, [.network, .paymaster, .network])
  | .ok _ =>
  match o.signerInit with
  | .error err => (.error err, [.network, .paymaster, .network])
  | .ok _ => (.ok (), [])

/-- A `NewClient` run in which all three dials succeed and the paymaster
client initialization fails. -/
def paymasterInitFailureRun : NewClientOutcomes :=
  { dialNetwork := .ok (), dialPaymaster := .ok (), dialBundler := .ok (),
    entrypointInit := .ok (),
    paymasterClientInit := .error (.collaborator ("failed to initialize paymasterClient")),
    bundlerClientInit := .ok (), signerInit := .ok () }

/-! ## Byte-level lemmas -/

theorem beBytes_length (w n : Nat) : (beBytes w n).length = w := by
  induction w generalizing n with
  | zero => rfl
  | succ w ih => simp [beBytes, ih]

theorem leBytes_length (w n : Nat) : (leBytes w n).length = w := by
  induction w generalizing n with
  | zero => rfl
  | succ w ih => simp [leBytes, ih]

theorem keccak256_length (msg : List Nat) : (keccak256 msg).length = 32 := by
  simp [keccak256, leBytes_length]

theorem beBytes_zero (w : Nat) : beBytes w 0 = List.replicate w 0 := by
  induction w with
  | zero => rfl
  | succ w ih => rw [beBytes, Nat.zero_div, Nat.zero_mod, ih, ← List.replicate_succ']

theorem natFromBytesBE_snoc (xs : List Nat) (b : Nat) :
    natFromBytesBE (xs ++ [b]) = natFromBytesBE xs * 256 + b := by
  simp [natFromBytesBE, List.foldl_append]

theorem natFromBytesBE_beBytes (w n : Nat) : natFromBytesBE (beBytes w n) = n % 256 ^ w := by
  induction w generalizing n with
  | zero => simp [beBytes, natFromBytesBE, Nat.mod_one]
  | succ w ih =>
    rw [beBytes, natFromBytesBE_snoc, ih, pow_succ, mul_comm (256 ^ w) 256, Nat.mod_mul]
    ring

theorem beBytes_inj {w n m : Nat} (hn : n < 256 ^ w) (hm : m < 256 ^ w)
    (h : beBytes w n = beBytes w m) : n = m := by
  have h2 := congrArg natFromBytesBE h
  rwa [natFromBytesBE_beBytes, natFromBytesBE_beBytes, Nat.mod_eq_of_lt hn,
    Nat.mod_eq_of_lt hm] at h2

theorem leftPadBytes_of_le {bs : List Nat} {l : Nat} (h : bs.length ≤ l) :
    leftPadBytes bs l = List.replicate (l - bs.length) 0 ++ bs := by
  unfold leftPadBytes
  by_cases hl : l ≤ bs.length
  · have hb : l = bs.length := le_antisymm hl h
    simp [hb]
  · simp [hl]

theorem leftPadBytes_length (bs : List Nat) (l : Nat) :
    (leftPadBytes bs l).length = max l bs.length := by
  unfold leftPadBytes
  split <;> simp <;> omega

theorem rightPadBytes_of_ge {bs : List Nat} {l : Nat} (h : l ≤ bs.length) :
    rightPadBytes bs l = bs := by
  simp [rightPadBytes, h]

theorem take_append_of_length {α : Type} {xs : List α} (ys : List α) {n : Nat}
    (h : xs.length = n) : (xs ++ ys).take n = xs := by
  subst h
  induction xs with
  | nil => simp
  | cons a t ih => simp [ih]

theorem drop_append_of_length {α : Type} {xs : List α} (ys : List α) {n m : Nat}
    (h : xs.length = n) : (xs ++ ys).drop (n + m) = ys.drop m := by
  subst h
  induction xs with
  | nil => simp
  | cons a t ih =>
    rw [List.length_cons, List.cons_append, Nat.add_right_comm, List.drop_succ_cons]
    exact ih

theorem natBytesAux_leftPad :
    ∀ fuel n w, n ≤ fuel → n < 256 ^ w →
      leftPadBytes (natBytesAux fuel n) w = beBytes w n := by
  intro fuel
  induction fuel with
  | zero =>
    intro n w hn _
    have hz : n = 0 := by omega
    subst hz
    rw [natBytesAux, leftPadBytes_of_le (by simp), beBytes_zero]
    simp
  | succ f ih =>
    intro n w hn hw
    match n with
    | 0 =>
      rw [natBytesAux, leftPadBytes_of_le (by simp), beBytes_zero]
      simp
    | m + 1 =>
      match w with
      | 0 => omega
      | v + 1 =>
        have hq_lt_self : (m + 1) / 256 < m + 1 := Nat.div_lt_self (by omega) (by omega)
        have hq_le : (m + 1) / 256 ≤ f := by omega
        have hq_lt : (m + 1) / 256 < 256 ^ v := by
          rw [Nat.div_lt_iff_lt_mul (by omega : (0:Nat) < 256)]
          rw [pow_succ] at hw
          exact hw
        have hIH := ih ((m + 1) / 256) v hq_le hq_lt
        have hlen : (natBytesAux f ((m + 1) / 256)).length ≤ v := by
          have hc := congrArg List.length hIH
          rw [leftPadBytes_length, beBytes_length] at hc
          omega
        rw [natBytesAux, leftPadBytes_of_le (by simp; omega)]
        rw [leftPadBytes_of_le hlen] at hIH
        rw [show beBytes (v + 1) (m + 1) = beBytes v ((m + 1) / 256) ++ [(m + 1) % 256] from rfl,
          ← hIH]
        rw [← List.append_assoc]
        congr 2
        simp

theorem leftPad16_bigIntBytes {n : Nat} (h : n < 256 ^ 16) :
    leftPadBytes (bigIntBytes n) 16 = beBytes 16 n :=
  natBytesAux_leftPad n n 16 le_rfl h

theorem toArray32_length (buffer : List Nat) : (toArray32 buffer).length = 32 := by
  simp [toArray32]

theorem toArray32_of_length {buffer : List Nat} (h : buffer.length = 32) :
    toArray32 buffer = buffer := by
  rw [toArray32, take_append_of_length _ h]

theorem createPackedBuffer_spec {a b : Nat} (ha : a < 256 ^ 16) (hb : b < 256 ^ 16) :
    toArray32 (createPackedBuffer (bigIntBytes a) (bigIntBytes b)) =
      beBytes 16 a ++ beBytes 16 b := by
  rw [createPackedBuffer, leftPad16_bigIntBytes ha, leftPad16_bigIntBytes hb]
  exact toArray32_of_length (by simp [beBytes_length])

/-! ## Codec lemmas -/

theorem pack_eq_packBytes (op : UserOperation) :
    PackUserOperation op = .ok (packBytes op) := rfl

theorem getUserOperationHash_eq (e : EntrypointClient07) (op : UserOperation) :
    GetUserOperationHash e op = .ok (keccak256 (hashInputBytes e op)) := rfl

theorem rightPad32_keccak (msg : List Nat) :
    rightPadBytes (keccak256 msg) 32 = keccak256 msg :=
  rightPadBytes_of_ge (by rw [keccak256_length])

theorem rightPad32_toArray32 (buffer : List Nat) :
    rightPadBytes (toArray32 buffer) 32 = toArray32 buffer :=
  rightPadBytes_of_ge (by rw [toArray32_length])

/-- The packed operation as the concatenation of its eight 32-byte words. -/
theorem packBytes_words (op : UserOperation) :
    packBytes op =
      (List.replicate 12 0 ++ beBytes 20 op.Sender) ++
        (beBytes 32 op.Nonce ++
          (keccak256 [] ++
            (keccak256 op.CallData ++
              (toArray32 (createPackedBuffer (bigIntBytes op.VerificationGasLimit)
                  (bigIntBytes op.CallGasLimit)) ++
                (beBytes 32 op.PreVerificationGas ++
                  (toArray32 (createPackedBuffer (bigIntBytes op.MaxPriorityFeePerGas)
                      (bigIntBytes op.MaxFeePerGas)) ++
                    keccak256 [])))))) := by
  simp only [packBytes, abiPack, List.map, List.flatten, packElement, List.append_nil,
    rightPad32_keccak, rightPad32_toArray32]

/-- Packed-word layout under the protocol's 128-bit bounds on the paired
gas/fee quantities. -/
theorem packBytes_layout (op : UserOperation)
    (hv : op.VerificationGasLimit < 2 ^ 128) (hc : op.CallGasLimit < 2 ^ 128)
    (hp : op.MaxPriorityFeePerGas < 2 ^ 128) (hf : op.MaxFeePerGas < 2 ^ 128) :
    packBytes op =
      (List.replicate 12 0 ++ beBytes 20 op.Sender) ++
        (beBytes 32 op.Nonce ++
          (keccak256 [] ++
            (keccak256 op.CallData ++
              ((beBytes 16 op.VerificationGasLimit ++ beBytes 16 op.CallGasLimit) ++
                (beBytes 32 op.PreVerificationGas ++
                  ((beBytes 16 op.MaxPriorityFeePerGas ++ beBytes 16 op.MaxFeePerGas) ++
                    keccak256 [])))))) := by
  have h256 : (256 : Nat) ^ 16 = 2 ^ 128 := by norm_num
  rw [packBytes_words, createPackedBuffer_spec (by omega) (by omega),
    createPackedBuffer_spec (by omega) (by omega)]

/-! ## Hex round-trip lemmas (`hexutil.Bytes.String` / `hexutil.Decode`) -/

theorem fromHexChar_hexDigitChar {n : Nat} (h : n < 16) :
    fromHexChar (hexDigitChar n) = some n := by
  interval_cases n <;> decide

theorem hexDecodeChars_roundtrip : ∀ {bs : List Nat}, (∀ b ∈ bs, b < 256) →
    hexDecodeChars (hexEncodeBytes bs) = some bs := by
  intro bs
  induction bs with
  | nil => intro _; rfl
  | cons b t ih =>
    intro h
    have hb : b < 256 := h b (by simp)
    have ht : ∀ x ∈ t, x < 256 := fun x hx => h x (by simp [hx])
    have h1 : b / 16 < 16 := by omega
    have h2 : b % 16 < 16 := by omega
    have hval : 16 * (b / 16) + b % 16 = b := by omega
    simp only [hexEncodeBytes, List.map, List.flatten, List.cons_append, List.nil_append]
    rw [hexDecodeChars, fromHexChar_hexDigitChar h1, fromHexChar_hexDigitChar h2]
    have htail : hexDecodeChars (hexEncodeBytes t) = some t := ih ht
    simp only [hexEncodeBytes] at htail
    rw [htail]
    show some ((16 * (b / 16) + b % 16) :: t) = some (b :: t)
    rw [hval]

theorem hexutilDecode_roundtrip {bs : List Nat} (h : ∀ b ∈ bs, b < 256) :
    hexutilDecode (hexBytesToString bs) = some bs := by
  rw [hexBytesToString, hexutilDecode]
  simp [hexDecodeChars_roundtrip h]

/-! ## Claim theorems -/

/-- **C1.** `PackUserOperation` encodes, in fixed positional order: the
sender address word, the nonce as uint256, the keccak256 hash of the empty
init code, the keccak256 hash of the call data, the 32-byte slot
`leftPad16 verificationGasLimit ++ leftPad16 callGasLimit` (verification
first), `preVerificationGas` as uint256, the 32-byte slot
`leftPad16 maxPriorityFeePerGas ++ leftPad16 maxFeePerGas` (priority fee
first), and the keccak256 hash of the (empty) paymaster-and-data payload. -/
theorem pack_userOperation_layout (op : UserOperation)
    (hv : op.VerificationGasLimit < 2 ^ 128) (hc : op.CallGasLimit < 2 ^ 128)
    (hp : op.MaxPriorityFeePerGas < 2 ^ 128) (hf : op.MaxFeePerGas < 2 ^ 128) :
    PackUserOperation op = .ok
      ((List.replicate 12 0 ++ beBytes 20 op.Sender) ++
        (beBytes 32 op.Nonce ++
          (keccak256 [] ++
            (keccak256 op.CallData ++
              ((beBytes 16 op.VerificationGasLimit ++ beBytes 16 op.CallGasLimit) ++
                (beBytes 32 op.PreVerificationGas ++
                  ((beBytes 16 op.MaxPriorityFeePerGas ++ beBytes 16 op.MaxFeePerGas) ++
                    keccak256 []))))))) := by
  rw [pack_eq_packBytes, packBytes_layout op hv hc hp hf]

/-- Witness for C1 at a concrete operation. -/
theorem pack_userOperation_layout_witness :
    (5 : Nat) < 2 ^ 128 ∧ (4 : Nat) < 2 ^ 128 ∧ (8 : Nat) < 2 ^ 128 ∧ (7 : Nat) < 2 ^ 128 ∧
    PackUserOperation
        { Sender := 1, Nonce := 2, CallData := [3], CallGasLimit := 4,
          VerificationGasLimit := 5, PreVerificationGas := 6, MaxFeePerGas := 7,
          MaxPriorityFeePerGas := 8, Paymaster := 9, PaymasterData := [10],
          Signature := [11] } =
      .ok ((List.replicate 12 0 ++ beBytes 20 1) ++
        (beBytes 32 2 ++
          (keccak256 [] ++
            (keccak256 [3] ++
              ((beBytes 16 5 ++ beBytes 16 4) ++
                (beBytes 32 6 ++
                  ((beBytes 16 8 ++ beBytes 16 7) ++ keccak256 []))))))) := by
  refine ⟨by decide, by decide, by decide, by decide, ?_⟩
  exact pack_userOperation_layout _ (by decide) (by decide) (by decide) (by decide)

/-- **C2.** `GetUserOperationHash` returns the keccak256 digest of the
`(bytes32, address, uint256)` tuple encoding of the packed operation's
keccak256 digest, the gateway's EntryPoint address and its chain id; the
only failure channel is the (never-taken) error path of the two
encoders. -/
theorem getUserOperationHash_double_hash (e : EntrypointClient07) (op : UserOperation) :
    PackUserOperation op = .ok (packBytes op) ∧
    GetUserOperationHash e op =
      .ok (keccak256 (abiPack
        [.bytes32 (keccak256 (packBytes op)), .address e.Address, .uint256 e.ChainID])) :=
  ⟨rfl, rfl⟩

/-- **C3.** The paymaster-and-data word of the packed operation is the
keccak256 hash of the empty byte sequence, and neither the packed bytes
nor the operation hash depend on `Paymaster` / `PaymasterData`. -/
theorem pack_ignores_paymaster_fields (e : EntrypointClient07) (op : UserOperation)
    (pm : Nat) (pd : List Nat) :
    PackUserOperation { op with Paymaster := pm, PaymasterData := pd } =
      PackUserOperation op ∧
    (packBytes op).drop 224 = keccak256 [] ∧
    GetUserOperationHash e { op with Paymaster := pm, PaymasterData := pd } =
      GetUserOperationHash e op := by
  refine ⟨rfl, ?_, rfl⟩
  rw [packBytes_words]
  rw [show (224 : Nat) = 32 + 192 from rfl,
    drop_append_of_length _ (by simp [beBytes_length])]
  rw [show (192 : Nat) = 32 + 160 from rfl, drop_append_of_length _ (beBytes_length 32 _)]
  rw [show (160 : Nat) = 32 + 128 from rfl, drop_append_of_length _ (keccak256_length [])]
  rw [show (128 : Nat) = 32 + 96 from rfl, drop_append_of_length _ (keccak256_length _)]
  rw [show (96 : Nat) = 32 + 64 from rfl, drop_append_of_length _ (toArray32_length _)]
  rw [show (64 : Nat) = 32 + 32 from rfl, drop_append_of_length _ (beBytes_length 32 _)]
  rw [show (32 : Nat) = 32 + 0 from rfl, drop_append_of_length _ (toArray32_length _)]
  exact List.drop_zero _

/-- **C4.** `GetNonce` issues its `getNonce` call with the nonce key
`computeKey account`, which is zero for every account: the key never
depends on the account address. -/
theorem getNonce_key_always_zero (e : EntrypointClient07) (account a b : Nat) :
    computeKey account = 0 ∧
    getNonceCallMsg e account =
      { toAddr := e.Address,
        data := getNonceSelector ++ abiPack [.address account, .uint256 0] } ∧
    computeKey a = computeKey b :=
  ⟨rfl, rfl, rfl⟩

/-- **C6 (code bug).** In the run where all three dials succeed and the
paymaster-client initialization fails, the cleanup closes the network
connection twice and never closes the already-opened bundler connection,
contradicting the release-exactly-once requirement. -/
theorem newClient_cleanup_on_paymaster_init_failure :
    NewClientCloses paymasterInitFailureRun =
      (.error (.collaborator ("failed to initialize paymasterClient")),
        [.network, .paymaster, .network]) ∧
    opensBefore paymasterInitFailureRun = [.network, .paymaster, .bundler] ∧
    ConnId.bundler ∉ (NewClientCloses paymasterInitFailureRun).2 ∧
    (NewClientCloses paymasterInitFailureRun).2.count ConnId.network = 2 ∧
    (NewClientCloses paymasterInitFailureRun).2.count ConnId.paymaster = 1 :=
  ⟨rfl, rfl, by decide, by decide, by decide⟩

/-- **C7 (counterexample).** The decoding-failure branch of `GetNonce` is
unreachable: whenever the `eth_call` round trip itself succeeds, the
re-encoded response always decodes, so no response surfaces a decoding
error. -/
theorem getNonce_decoding_branch_unreachable :
    ¬ ∃ (e : EntrypointClient07) (account : Nat) (bs : List Nat) (cause : String),
        (∀ b ∈ bs, b < 256) ∧
        GetNonce e account (.success bs) = .error (.decoding cause) := by
  rintro ⟨e, account, bs, cause, hbs, heq⟩
  rw [GetNonce] at heq
  rw [hexutilDecode_roundtrip hbs] at heq
  exact absurd heq (by simp)

/-- **C7 (amended).** `GetNonce` fails with the wrapped transport error
when the `eth_call` fails; when the call succeeds the decode step always
succeeds (the bytes are re-encoded to canonical hex first), returning the
big-endian value of the response — the decoding-error branch never
fires. -/
theorem getNonce_error_paths (e : EntrypointClient07) (account : Nat) (cause : String)
    {bs : List Nat} (hbs : ∀ b ∈ bs, b < 256) :
    GetNonce e account (.failure cause) =
      .error (.rpcCall ("failed to call getNonce eth_call: " ++ cause)) ∧
    GetNonce e account (.success bs) = .ok (natFromBytesBE bs) := by
  refine ⟨rfl, ?_⟩
  rw [GetNonce, hexutilDecode_roundtrip hbs]

/-- Witness for the amended C7 at a concrete response. -/
theorem getNonce_error_paths_witness :
    (∀ b ∈ [0, 255, 16], b < 256) ∧
    GetNonce { Address := entryPointAddress07, ChainID := 137 } 5 (.failure ("boom")) =
      .error (.rpcCall ("failed to call getNonce eth_call: " ++ "boom")) ∧
    GetNonce { Address := entryPointAddress07, ChainID := 137 } 5 (.success [0, 255, 16]) =
      .ok 65296 := by
  refine ⟨by decide, ?_, ?_⟩
  · exact (@getNonce_error_paths _ 5 ("boom") [0, 255, 16] (by decide)).1
  · exact (@getNonce_error_paths _ 5 ("boom") [0, 255, 16] (by decide)).2

/-- **C5.** Whenever `GetUserOperationAndHashToSign` succeeds and the
sponsorship response carried gas limits `(callGasLimit, verificationGasLimit,
preVerificationGas)`, the returned (hashed) operation carries exactly those
values — and applying a sponsorship response overwrites those fields
whatever they held before. -/
theorem sponsorship_overrides_gas_limits (e : EntrypointClient07) (sender : Nat)
    (callData : List Nat) (nonceOutcome : Except GoError Nat)
    (gasPriceOutcome : Except GoError GasPriceResponse)
    (sponsorOutcome : UserOperation → Except GoError SponsorResponse)
    (op : UserOperation) (opHash : List Nat) (nonce : Nat) (gasPrice : GasPriceResponse)
    (sp : SponsorResponse)
    (hn : nonceOutcome = .ok nonce) (hg : gasPriceOutcome = .ok gasPrice)
    (hs : sponsorOutcome (preSponsorOp sender callData nonce gasPrice) = .ok sp)
    (hres : GetUserOperationAndHashToSign e sender callData nonceOutcome gasPriceOutcome
        sponsorOutcome = .ok (op, opHash)) :
    op.CallGasLimit = sp.CallGasLimit ∧
    op.VerificationGasLimit = sp.VerificationGasLimit ∧
    op.PreVerificationGas = sp.PreVerificationGas ∧
    op = applySponsorship (preSponsorOp sender callData nonce gasPrice) sp ∧
    opHash = keccak256 (hashInputBytes e op) ∧
    ∀ prior : UserOperation,
      (applySponsorship prior sp).CallGasLimit = sp.CallGasLimit ∧
      (applySponsorship prior sp).VerificationGasLimit = sp.VerificationGasLimit ∧
      (applySponsorship prior sp).PreVerificationGas = sp.PreVerificationGas := by
  subst hn
  subst hg
  simp only [GetUserOperationAndHashToSign, hs, getUserOperationHash_eq,
    Except.ok.injEq, Prod.mk.injEq] at hres
  obtain ⟨hop, hhash⟩ := hres
  subst hop
  subst hhash
  exact ⟨rfl, rfl, rfl, rfl, rfl, fun _ => ⟨rfl, rfl, rfl⟩⟩

/-- Witness for C5 at concrete collaborator outcomes. -/
theorem sponsorship_overrides_gas_limits_witness :
    GetUserOperationAndHashToSign ⟨entryPointAddress07, 137⟩ 3 [222] (.ok 7)
        (.ok ⟨⟨1000, 100⟩⟩) (fun _ => .ok ⟨11, [12], 21000, 50000, 30000⟩) =
      .ok (applySponsorship (preSponsorOp 3 [222] 7 ⟨⟨1000, 100⟩⟩)
          ⟨11, [12], 21000, 50000, 30000⟩,
        keccak256 (hashInputBytes ⟨entryPointAddress07, 137⟩
          (applySponsorship (preSponsorOp 3 [222] 7 ⟨⟨1000, 100⟩⟩)
            ⟨11, [12], 21000, 50000, 30000⟩))) ∧
    (applySponsorship (preSponsorOp 3 [222] 7 ⟨⟨1000, 100⟩⟩)
        ⟨11, [12], 21000, 50000, 30000⟩).CallGasLimit = 30000 ∧
    (applySponsorship (preSponsorOp 3 [222] 7 ⟨⟨1000, 100⟩⟩)
        ⟨11, [12], 21000, 50000, 30000⟩).VerificationGasLimit = 50000 ∧
    (applySponsorship (preSponsorOp 3 [222] 7 ⟨⟨1000, 100⟩⟩)
        ⟨11, [12], 21000, 50000, 30000⟩).PreVerificationGas = 21000 := by
  have hres : GetUserOperationAndHashToSign ⟨entryPointAddress07, 137⟩ 3 [222] (.ok 7)
      (.ok ⟨⟨1000, 100⟩⟩) (fun _ => .ok ⟨11, [12], 21000, 50000, 30000⟩) =
    .ok (applySponsorship (preSponsorOp 3 [222] 7 ⟨⟨1000, 100⟩⟩)
        ⟨11, [12], 21000, 50000, 30000⟩,
      keccak256 (hashInputBytes ⟨entryPointAddress07, 137⟩
        (applySponsorship (preSponsorOp 3 [222] 7 ⟨⟨1000, 100⟩⟩)
          ⟨11, [12], 21000, 50000, 30000⟩))) := rfl
  obtain ⟨h1, h2, h3, _, _, _⟩ :=
    sponsorship_overrides_gas_limits ⟨entryPointAddress07, 137⟩ 3 [222] _ _ _ _ _ 7
      ⟨⟨1000, 100⟩⟩ ⟨11, [12], 21000, 50000, 30000⟩ rfl rfl rfl hres
  exact ⟨hres, h1, h2, h3⟩

/-- **C8.** If the submission call succeeds, `SendSignedUserOperation`
returns a non-error result whose hash is the submission identifier; with
`waitForReceipt` true and a failing receipt poll, the receipt is simply
absent and no error is surfaced. -/
theorem sendSigned_swallows_receipt_failure (signedOp : UserOperation) (wait : Bool)
    (sendOutcome : Except GoError (List Nat))
    (receiptOutcome : Except GoError UserOperationReceipt) (response : List Nat)
    (hs : sendOutcome = .ok response) :
    SendSignedUserOperation signedOp wait sendOutcome receiptOutcome =
      .ok { UserOperationHash := response,
            Receipt := if wait then receiptOutcome.toOption else none } ∧
    ∀ err, receiptOutcome = .error err →
      SendSignedUserOperation signedOp true sendOutcome receiptOutcome =
        .ok { UserOperationHash := response, Receipt := none } := by
  subst hs
  constructor
  · cases receiptOutcome <;> rfl
  · intro err herr
    subst herr
    rfl

/-- Witness for C8: a successful submission with a failing poll yields the
hash with an absent receipt and no error. -/
theorem sendSigned_swallows_receipt_failure_witness :
    SendSignedUserOperation {} true (.ok [9]) (.error (.rpcCall ("poll failed"))) =
      .ok { UserOperationHash := [9], Receipt := none } :=
  (sendSigned_swallows_receipt_failure {} true (.ok [9])
    (.error (.rpcCall ("poll failed"))) [9] rfl).2 (.rpcCall ("poll failed")) rfl

/-- Equal packed operations with equal non-gas fields (and 128-bit gas
limits) force equal gas limits: the 16-byte halves of the gas slot are
recoverable. -/
theorem packBytes_gas_slot_inj {op1 op2 : UserOperation}
    (hS : op1.Sender = op2.Sender) (hN : op1.Nonce = op2.Nonce)
    (hCD : op1.CallData = op2.CallData)
    (hPV : op1.PreVerificationGas = op2.PreVerificationGas)
    (hMP : op1.MaxPriorityFeePerGas = op2.MaxPriorityFeePerGas)
    (hMF : op1.MaxFeePerGas = op2.MaxFeePerGas)
    (hv1 : op1.VerificationGasLimit < 2 ^ 128) (hc1 : op1.CallGasLimit < 2 ^ 128)
    (hv2 : op2.VerificationGasLimit < 2 ^ 128) (hc2 : op2.CallGasLimit < 2 ^ 128)
    (hpack : packBytes op1 = packBytes op2) :
    op1.VerificationGasLimit = op2.VerificationGasLimit ∧
    op1.CallGasLimit = op2.CallGasLimit := by
  have h256 : (256 : Nat) ^ 16 = 2 ^ 128 := by norm_num
  have hv1a : op1.VerificationGasLimit < 256 ^ 16 := by rw [h256]; exact hv1
  have hc1a : op1.CallGasLimit < 256 ^ 16 := by rw [h256]; exact hc1
  have hv2a : op2.VerificationGasLimit < 256 ^ 16 := by rw [h256]; exact hv2
  have hc2a : op2.CallGasLimit < 256 ^ 16 := by rw [h256]; exact hc2
  rw [packBytes_words, packBytes_words, hS, hN, hCD, hPV, hMP, hMF] at hpack
  have h5 := List.append_cancel_left (List.append_cancel_left
    (List.append_cancel_left (List.append_cancel_left hpack)))
  have hslot := List.append_cancel_right h5
  rw [createPackedBuffer_spec hv1a hc1a, createPackedBuffer_spec hv2a hc2a] at hslot
  have hv := congrArg (List.take 16) hslot
  rw [take_append_of_length _ (beBytes_length 16 _),
    take_append_of_length _ (beBytes_length 16 _)] at hv
  rw [hv] at hslot
  have hc := List.append_cancel_left hslot
  exact ⟨beBytes_inj hv1a hv2a hv, beBytes_inj hc1a hc2a hc⟩

/-- **C9.** For `A ≠ B` (both 128-bit), packing with
`verificationGasLimit = A, callGasLimit = B` differs from packing the same
operation with the two values swapped; the corresponding operation hashes
can only coincide if keccak256 collides. -/
theorem pack_pair_order_sensitive (e : EntrypointClient07) (op : UserOperation) (A B : Nat)
    (hA : A < 2 ^ 128) (hB : B < 2 ^ 128) (hAB : A ≠ B) :
    PackUserOperation { op with VerificationGasLimit := A, CallGasLimit := B } ≠
      PackUserOperation { op with VerificationGasLimit := B, CallGasLimit := A } ∧
    (GetUserOperationHash e { op with VerificationGasLimit := A, CallGasLimit := B } =
        GetUserOperationHash e { op with VerificationGasLimit := B, CallGasLimit := A } →
      ∃ x y : List Nat, x ≠ y ∧ keccak256 x = keccak256 y) := by
  have hPackNe :
      packBytes { op with VerificationGasLimit := A, CallGasLimit := B } ≠
        packBytes { op with VerificationGasLimit := B, CallGasLimit := A } := by
    intro hcon
    exact hAB (@packBytes_gas_slot_inj
      { op with VerificationGasLimit := A, CallGasLimit := B }
      { op with VerificationGasLimit := B, CallGasLimit := A }
      rfl rfl rfl rfl rfl rfl hA hB hB hA hcon).1
  constructor
  · intro hcon
    rw [pack_eq_packBytes, pack_eq_packBytes] at hcon
    injection hcon with hcon
    exact hPackNe hcon
  · intro hHash
    rw [getUserOperationHash_eq, getUserOperationHash_eq] at hHash
    injection hHash with hK
    by_cases hpk :
        keccak256 (packBytes { op with VerificationGasLimit := A, CallGasLimit := B }) =
          keccak256 (packBytes { op with VerificationGasLimit := B, CallGasLimit := A })
    · exact ⟨_, _, hPackNe, hpk⟩
    · refine ⟨_, _, ?_, hK⟩
      intro hcon
      apply hpk
      simp only [hashInputBytes, abiPack, List.map, List.flatten, packElement,
        List.append_nil, rightPad32_keccak] at hcon
      exact List.append_cancel_right hcon

/-- Witness for C9 at `A = 1`, `B = 2`. -/
theorem pack_pair_order_sensitive_witness :
    (1 : Nat) < 2 ^ 128 ∧ (2 : Nat) < 2 ^ 128 ∧ (1 : Nat) ≠ 2 ∧
    PackUserOperation
        { ({} : UserOperation) with VerificationGasLimit := 1, CallGasLimit := 2 } ≠
      PackUserOperation
        { ({} : UserOperation) with VerificationGasLimit := 2, CallGasLimit := 1 } := by
  refine ⟨by decide, by decide, by decide, ?_⟩
  exact (pack_pair_order_sensitive ⟨entryPointAddress07, 137⟩ {} 1 2
    (by decide) (by decide) (by decide)).1

/-- **C10.** With `verificationGasLimit = 2 ^ 128` (17 bytes), packing does
not fail: the oversized half is emitted unpadded, the combined buffer is 33
bytes, `toArray32` keeps only its first 32 bytes, and the trailing byte of
the call gas limit is dropped — operations differing only in
`callGasLimit` pack identically. -/
theorem toArray32_truncates_oversized_gas :
    leftPadBytes (bigIntBytes (2 ^ 128)) 16 = bigIntBytes (2 ^ 128) ∧
    (bigIntBytes (2 ^ 128)).length = 17 ∧
    (createPackedBuffer (bigIntBytes (2 ^ 128)) (bigIntBytes 1)).length = 33 ∧
    toArray32 (createPackedBuffer (bigIntBytes (2 ^ 128)) (bigIntBytes 1)) =
      1 :: List.replicate 31 0 ∧
    PackUserOperation
        { VerificationGasLimit := 2 ^ 128, CallGasLimit := 0 } =
      .ok (packBytes { VerificationGasLimit := 2 ^ 128, CallGasLimit := 0 }) ∧
    PackUserOperation { VerificationGasLimit := 2 ^ 128, CallGasLimit := 0 } =
      PackUserOperation { VerificationGasLimit := 2 ^ 128, CallGasLimit := 1 } ∧
    ({ VerificationGasLimit := 2 ^ 128, CallGasLimit := 0 } : UserOperation).CallGasLimit ≠
      ({ VerificationGasLimit := 2 ^ 128, CallGasLimit := 1 } : UserOperation).CallGasLimit := by
  have h0 : toArray32 (createPackedBuffer (bigIntBytes (2 ^ 128)) (bigIntBytes 0)) =
      1 :: List.replicate 31 0 := by decide
  have h1 : toArray32 (createPackedBuffer (bigIntBytes (2 ^ 128)) (bigIntBytes 1)) =
      1 :: List.replicate 31 0 := by decide
  refine ⟨by decide, by decide, by decide, h1, rfl, ?_, by decide⟩
  rw [pack_eq_packBytes, pack_eq_packBytes, packBytes_words, packBytes_words]
  dsimp only
  rw [h0, h1]

end Zerodev

